import Mathlib

/-
Verification development for the Carapace addon manager.
The definitions below are a shallow embedding of the Python source
(`carapace/installer.py`, `carapace/db.py`, `carapace/tui.py`):
strings are Lean `String`s, SQLite tables are lists of row structures,
Python dicts are association lists with overwrite-on-insert semantics,
and external effects (git, network, filesystem) are passed in as
explicit environment values describing their outcomes.
-/

/-- Python `str.lower()` (ASCII case folding, which is all the sources use). -/
def pyLower (s : String) : String :=
  String.mk (s.data.map Char.toLower)

/-- Python truthiness of a string: non-empty means truthy. -/
def truthyS (s : String) : Bool :=
  s != ""

/-- Python truthiness of an optional string (None and "" are falsy). -/
def truthyO : Option String → Bool
  | none => false
  | some s => truthyS s

/-- Fuel-indexed worker for `pyReplace`; fuel is the length of the subject,
which is enough because every step consumes at least one character. -/
def replaceAllAux : Nat → List Char → List Char → List Char → List Char
  | 0, s, _, _ => s
  | n + 1, s, pat, rep =>
    match s with
    | [] => []
    | c :: cs =>
      if pat.isPrefixOf (c :: cs) then
        rep ++ replaceAllAux n ((c :: cs).drop pat.length) pat rep
      else
        c :: replaceAllAux n cs pat rep

/-- Python `str.replace`: replace every non-overlapping occurrence, left to right. -/
def pyReplace (s pat rep : String) : String :=
  if pat.data.isEmpty then s
  else String.mk (replaceAllAux s.data.length s.data pat.data rep.data)

/-- Python `str.rstrip(chars)`: drop trailing characters drawn from the set `chars`. -/
def pyRstrip (s : String) (chars : List Char) : String :=
  String.mk ((s.data.reverse.dropWhile (fun c => chars.contains c)).reverse)

/-- `AddonInstaller._normalize_repo_url` (installer.py lines 51-62):
protocol markers removed by `str.replace`, then `rstrip('/')`, then
`rstrip('.git')` (a character-set strip), then lowercased. -/
def normalize_repo_url (url : String) : String :=
  if url == "" then ""
  else
    pyLower
      (pyRstrip
        (pyRstrip (pyReplace (pyReplace (pyReplace url "https://" "") "http://" "") "git://" "")
          ['/'])
        ['.', 'g', 'i', 't'])

/-- A row of the `addons` table (db.py `_init_schema`), restricted to the
columns the modelled operations read or write. `tags` is stored as a JSON
array in SQLite; it is modelled as the decoded list. -/
structure CatalogRow where
  id : Nat
  name : String
  repo_url : Option String
  override_url : Option String
  description : Option String
  tags : Option (List String)
  folder_names : Option (List String)
  host : Option String
  created_at_utc : Option String
  updated_at_utc : Option String
  deleted_at_utc : Option String
  deriving DecidableEq

/-- A row of the `installed` table (db.py `_init_schema`). -/
structure InstalledRow where
  id : Nat
  name : String
  version : String
  path : String
  installed_at_utc : String
  last_update_utc : Option String
  enabled : Nat
  source_repo_url : String
  deleted_at_utc : Option String
  deriving DecidableEq

/-- The persistent store: the two tables the claims are about, plus the
rowid counters SQLite supplies for `INTEGER PRIMARY KEY` columns. -/
structure Db where
  addons : List CatalogRow
  installed : List InstalledRow
  nextInstalledId : Nat
  nextAddonId : Nat
  deriving DecidableEq

/-- Installer configuration: `get_addon_path()` can fail to detect a game
directory, in which case `self.addon_path` is `None`. -/
structure Config where
  hasAddonPath : Bool
  addonPath : String

/-- Python dict assignment `d[k] = v`: overwrite in place if the key exists
(keeping its position), append otherwise. -/
def dictInsert {β : Type} : List (String × β) → String → β → List (String × β)
  | [], k, v => [(k, v)]
  | p :: rest, k, v => if p.1 == k then (k, v) :: rest else p :: dictInsert rest k v

/-- Python dict lookup `d.get(k)`. -/
def dictGet {β : Type} : List (String × β) → String → Option β
  | [], _ => none
  | p :: rest, k => if p.1 == k then some p.2 else dictGet rest k

/-- `AddonInstaller.get_installed_addons` (installer.py lines 112-131):
the live rows of `installed`, keyed by the lowercased name; a later row
with the same key overwrites an earlier one. -/
def getInstalled (tbl : List InstalledRow) : List (String × InstalledRow) :=
  (tbl.filter (fun r => r.deleted_at_utc.isNone)).foldl
    (fun d r => dictInsert d (pyLower r.name) r) []

/-- `AddonInstaller.is_installed` (installer.py lines 234-237). -/
def is_installed (tbl : List InstalledRow) (addon_name : String) : Bool :=
  (dictGet (getInstalled tbl) (pyLower addon_name)).isSome

/-- `AddonInstaller._build_repo_cache` (installer.py lines 36-49): normalized
`repo_url` of each live catalog row with a non-empty `repo_url`, mapped to the
row's name.  Note: `override_url` is never consulted here. -/
def repoCache (addons : List CatalogRow) : List (String × String) :=
  (addons.filter (fun r => truthyO r.repo_url && r.deleted_at_utc.isNone)).foldl
    (fun d r => dictInsert d (normalize_repo_url (r.repo_url.getD "")) r.name) []

/-- `AddonInstaller._match_by_folder_name` (installer.py lines 90-110): first
live catalog row whose stored folder-name alias list contains the folder. -/
def matchByFolderName (addons : List CatalogRow) (fname : String) : Option String :=
  ((addons.filter (fun r => r.folder_names.isSome && r.deleted_at_utc.isNone)).find?
    (fun r => (r.folder_names.getD []).contains fname)).map (fun r => r.name)

/-- One immediate subdirectory of the add-on root as the scanner sees it:
its name, whether it holds a `.toc` manifest, the git remote URL extracted
from `.git/config` if any, and its absolute path. -/
structure DiskFolder where
  fname : String
  hasToc : Bool
  gitUrl : Option String
  path : String
  deriving DecidableEq

/-- The filesystem: whether the add-on root exists, its subdirectories,
and which absolute paths currently exist on disk. -/
structure Fs where
  rootExists : Bool
  folders : List DiskFolder
  pathExists : String → Bool

/-- The per-folder record built by `scan_addon_directory`. -/
structure ScanInfo where
  gitUrl : Option String
  matched : Option String
  path : String
  deriving DecidableEq

/-- The `matched_addon` computation of `scan_addon_directory` (installer.py
lines 150-160): URL-cache lookup first (only when a git URL was extracted),
folder-name alias match as fallback when that produced nothing truthy. -/
def resolveMatch (addons : List CatalogRow) (f : DiskFolder) : Option String :=
  let m1 : Option String :=
    if truthyO f.gitUrl then dictGet (repoCache addons) (normalize_repo_url (f.gitUrl.getD ""))
    else none
  if truthyO m1 then m1 else matchByFolderName addons f.fname

/-- `AddonInstaller.scan_addon_directory` (installer.py lines 133-172):
a dict keyed by folder name over the manifest-bearing subdirectories;
empty when no add-on path is configured or the root does not exist. -/
def scan_addon_directory (cfg : Config) (addons : List CatalogRow) (fs : Fs) :
    List (String × ScanInfo) :=
  if cfg.hasAddonPath && fs.rootExists then
    (fs.folders.filter (fun f => f.hasToc)).foldl
      (fun d f =>
        dictInsert d f.fname
          { gitUrl := f.gitUrl, matched := resolveMatch addons f, path := f.path })
      []
  else []

/-- `info['matched_addon'] or folder_name` (installer.py line 195). -/
def anameOf (e : String × ScanInfo) : String :=
  match e.2.matched with
  | some m => if m != "" then m else e.1
  | none => e.1

/-- The row inserted by `sync_installed_state` for a newly found folder
(installer.py lines 200-205). -/
def newFoundRow (db : Db) (now aname : String) (info : ScanInfo) : InstalledRow :=
  { id := db.nextInstalledId, name := aname, version := "unknown", path := info.path,
    installed_at_utc := now, last_update_utc := none, enabled := 1,
    source_repo_url := info.gitUrl.getD "", deleted_at_utc := none }

/-- First loop of `sync_installed_state` (installer.py lines 194-214): folders
not present (case-insensitively) in the start-of-call snapshot are inserted;
otherwise, when both a git URL and a catalog match are present, the matching
live rows get their path and source URL repaired in place. -/
def syncLoop1 (snap : List (String × InstalledRow)) (now : String) :
    List (String × ScanInfo) → Db → Nat → Db × Nat
  | [], db, n => (db, n)
  | e :: rest, db, n =>
    let aname := anameOf e
    if (dictGet snap (pyLower aname)).isNone then
      syncLoop1 snap now rest
        { db with installed := db.installed ++ [newFoundRow db now aname e.2],
                  nextInstalledId := db.nextInstalledId + 1 }
        (n + 1)
    else
      if truthyO e.2.gitUrl && truthyO e.2.matched then
        syncLoop1 snap now rest
          { db with
            installed :=
              db.installed.map (fun r =>
                if r.name == aname && r.deleted_at_utc.isNone then
                  { r with path := e.2.path, source_repo_url := e.2.gitUrl.getD "" }
                else r) }
          n
      else syncLoop1 snap now rest db n

/-- Second loop of `sync_installed_state` (installer.py lines 217-227):
snapshot records whose stored path no longer exists are soft-deleted
(the UPDATE matches the record's name exactly). -/
def syncLoop2 (now : String) (pe : String → Bool) :
    List (String × InstalledRow) → Db → Nat → Db × Nat
  | [], db, n => (db, n)
  | e :: rest, db, n =>
    if pe e.2.path then syncLoop2 now pe rest db n
    else
      syncLoop2 now pe rest
        { db with
          installed :=
            db.installed.map (fun r =>
              if r.name == e.2.name && r.deleted_at_utc.isNone then
                { r with deleted_at_utc := some now }
              else r) }
        (n + 1)

/-- `AddonInstaller.sync_installed_state` (installer.py lines 174-232):
returns `(newly_found, removed)` and the updated store. -/
def sync_installed_state (cfg : Config) (db : Db) (fs : Fs) (now : String) :
    (Nat × Nat) × Db :=
  if cfg.hasAddonPath then
    let snap := getInstalled db.installed
    let disk := scan_addon_directory cfg db.addons fs
    let p1 := syncLoop1 snap now disk db 0
    let p2 := syncLoop2 now fs.pathExists snap p1.1 0
    ((p1.2, p2.2), p2.1)
  else ((0, 0), db)

/-- `AddonInstaller.mark_installed` (installer.py lines 261-294): the
existence check `WHERE name = ? AND deleted_at_utc IS NULL` compares names
with SQLite's default (case-sensitive) collation; on a hit the row is updated
by id, otherwise a fresh row is inserted. -/
def mark_installed (cfg : Config) (db : Db)
    (addon_name version repo_url path now : String) : Db :=
  match db.installed.find? (fun r => r.name == addon_name && r.deleted_at_utc.isNone) with
  | some ex =>
    { db with
      installed :=
        db.installed.map (fun r =>
          if r.id == ex.id then
            { r with version := version, last_update_utc := some now,
                     source_repo_url := repo_url }
          else r) }
  | none =>
    let p := if path == "" && cfg.hasAddonPath then cfg.addonPath ++ "/" ++ addon_name else path
    { db with
      installed :=
        db.installed ++
          [{ id := db.nextInstalledId, name := addon_name, version := version, path := p,
             installed_at_utc := now, last_update_utc := none, enabled := 1,
             source_repo_url := repo_url, deleted_at_utc := none }],
      nextInstalledId := db.nextInstalledId + 1 }

/-- Source-URL resolution shared verbatim by `install_addon_git` (installer.py
lines 565-571) and `install_addon_zip` (lines 631-637): the explicit argument
when truthy, else `override_url or repo_url` from the first catalog row with
the given name. -/
def resolveSourceUrl (addons : List CatalogRow) (addon_name : String)
    (arg : Option String) : Option String :=
  if truthyO arg then arg
  else
    match addons.find? (fun r => r.name == addon_name) with
    | some r => if truthyO r.override_url then r.override_url else r.repo_url
    | none => arg

/-- Outcome of the `git clone` subprocess in `install_addon_git`. -/
inductive CloneOutcome
  | ok
  | exitNonzero
  | timedOut
  | raised
  deriving DecidableEq

/-- External effects of the git strategy: whether removing a stale staging
copy raises, the clone outcome, whether the junction-linking phase raises,
the folders `_link_subfolders` returns, and the version read from each
folder's manifest. -/
structure GitEnv where
  precloneRaises : Bool
  clone : CloneOutcome
  linkRaises : Bool
  linkedFolders : List (String × String)
  folderVersion : String → String

/-- External effects of the archive strategy: the resolved release archive
URL (none when `_get_github_release_url` finds nothing), whether the
download/extract step raises, the manifest-bearing folders found in the
archive, whether copying a given folder raises, and per-folder versions. -/
structure ZipEnv where
  releaseUrl : Option String
  downloadRaises : Bool
  addonFolders : List (String × String)
  copyRaises : String → Bool
  folderVersion : String → String

/-- The per-folder install loop of `install_addon_zip` (installer.py lines
669-688): each successfully copied folder is immediately marked installed
(and committed) under the add-on's name; a raising copy aborts the whole
call, leaving the records already written in place. -/
def zipLoop (cfg : Config) (z : ZipEnv) (addon_name url now : String) :
    List (String × String) → Db → Bool × Db
  | [], db => (true, db)
  | (fn, _) :: rest, db =>
    if z.copyRaises fn then (false, db)
    else
      zipLoop cfg z addon_name url now rest
        (mark_installed cfg db addon_name (z.folderVersion fn) url
          (cfg.addonPath ++ "/" ++ fn) now)

/-- `AddonInstaller.install_addon_zip` (installer.py lines 622-694). -/
def install_addon_zip (cfg : Config) (db : Db) (z : ZipEnv) (addon_name : String)
    (arg : Option String) (now : String) : Bool × Db :=
  if cfg.hasAddonPath then
    let u := resolveSourceUrl db.addons addon_name arg
    if truthyO u then
      match z.releaseUrl with
      | none => (false, db)
      | some _ =>
        if z.downloadRaises then (false, db)
        else if z.addonFolders.isEmpty then (false, db)
        else zipLoop cfg z addon_name (u.getD "") now z.addonFolders db
    else (false, db)
  else (false, db)

/-- The marking loop after a successful clone in `install_addon_git`
(installer.py lines 604-609); note the stored path is the staging repo. -/
def gitMarkLoop (cfg : Config) (g : GitEnv) (addon_name url repoDest now : String) :
    List (String × String) → Db → Db
  | [], db => db
  | (fn, _) :: rest, db =>
    gitMarkLoop cfg g addon_name url repoDest now rest
      (mark_installed cfg db (if fn == addon_name then addon_name else fn)
        (g.folderVersion fn) url repoDest now)

/-- `AddonInstaller.install_addon_git` (installer.py lines 556-620): a clone
failure (non-zero exit, timeout, or any exception in the try block) falls
back to `install_addon_zip` with the already-resolved URL. -/
def install_addon_git (cfg : Config) (db : Db) (g : GitEnv) (z : ZipEnv)
    (addon_name : String) (arg : Option String) (now : String) : Bool × Db :=
  if cfg.hasAddonPath then
    let u := resolveSourceUrl db.addons addon_name arg
    if truthyO u then
      if g.precloneRaises then install_addon_zip cfg db z addon_name u now
      else
        match g.clone with
        | CloneOutcome.ok =>
          if g.linkRaises then install_addon_zip cfg db z addon_name u now
          else
            (true,
              gitMarkLoop cfg g addon_name (u.getD "")
                (cfg.addonPath ++ "/.repos/" ++ addon_name) now g.linkedFolders db)
        | _ => install_addon_zip cfg db z addon_name u now
    else (false, db)
  else (false, db)

/-- `AddonInstaller.install_addon` (installer.py lines 696-712). -/
def install_addon (cfg : Config) (db : Db) (g : GitEnv) (z : ZipEnv)
    (addon_name : String) (arg : Option String) (now : String) (use_git : Bool) :
    Bool × Db :=
  if use_git then install_addon_git cfg db g z addon_name arg now
  else install_addon_zip cfg db z addon_name arg now

/-- Soft-delete every live row with exactly the given name, as the UPDATE
statements in `remove_addon` and `sync_installed_state` do. -/
def softDeleteByName (tbl : List InstalledRow) (n now : String) : List InstalledRow :=
  tbl.map (fun r =>
    if r.name == n && r.deleted_at_utc.isNone then { r with deleted_at_utc := some now }
    else r)

/-- External effects of `remove_addon`: whether a staging repo exists for the
call's name, whether deleting it raises, and whether deleting the stored
path raises. Junction-removal errors are swallowed by the source and have no
control effect. -/
structure RemoveEnv where
  repoFolderExists : Bool
  rmtreeRepoRaises : Bool
  removePathRaises : Bool

/-- `AddonInstaller.remove_addon` (installer.py lines 714-803): the record is
looked up case-insensitively; any raising filesystem removal aborts before
the soft-delete; otherwise the soft-delete UPDATE matches the call's name
exactly and the call reports success. -/
def remove_addon (cfg : Config) (db : Db) (env : RemoveEnv) (pe : String → Bool)
    (addon_name now : String) : Bool × Db :=
  if cfg.hasAddonPath then
    match dictGet (getInstalled db.installed) (pyLower addon_name) with
    | none => (false, db)
    | some v =>
      if env.repoFolderExists then
        if env.rmtreeRepoRaises then (false, db)
        else (true, { db with installed := softDeleteByName db.installed addon_name now })
      else
        if pe v.path then
          if env.removePathRaises then (false, db)
          else (true, { db with installed := softDeleteByName db.installed addon_name now })
        else (true, { db with installed := softDeleteByName db.installed addon_name now })
  else (false, db)

/-- The directory-link state between the add-on root entry and the staging
checkout, as toggled by the TUI's enable/disable. -/
structure LinkFs where
  linkPresent : Bool
  deriving DecidableEq

/-- Set the `enabled` flag of every live row with exactly the given name, as
the UPDATE statements in `enable_addon`/`disable_addon` do. -/
def setEnabledByName (tbl : List InstalledRow) (n : String) (v : Nat) : List InstalledRow :=
  tbl.map (fun r =>
    if r.name == n && r.deleted_at_utc.isNone then { r with enabled := v } else r)

/-- `CarapaceApp.disable_addon` (tui.py lines 2008-2054): the junction is
removed with `rmdir` run with `check=False`, so its result is ignored and
the `enabled=0` update always follows. -/
def disable_addon (db : Db) (lfs : LinkFs) (rmdirWorks : Bool) (addon_name : String) :
    Bool × Db × LinkFs :=
  match db.installed.find? (fun r => r.name == addon_name && r.deleted_at_utc.isNone) with
  | none => (false, db, lfs)
  | some _ =>
    let lfs2 := if lfs.linkPresent && rmdirWorks then { linkPresent := false } else lfs
    (true, { db with installed := setEnabledByName db.installed addon_name 0 }, lfs2)

/-- `CarapaceApp.enable_addon` (tui.py lines 2056-2117): the staging repo
must exist; a leftover entry is removed with an ignored `rmdir`; `mklink`
runs with `check=True`, so its failure aborts before the `enabled=1` update. -/
def enable_addon (db : Db) (lfs : LinkFs) (repoExists preRmdirWorks mklinkWorks : Bool)
    (addon_name : String) : Bool × Db × LinkFs :=
  match db.installed.find? (fun r => r.name == addon_name && r.deleted_at_utc.isNone) with
  | none => (false, db, lfs)
  | some _ =>
    if repoExists then
      let lfs2 := if lfs.linkPresent && preRmdirWorks then { linkPresent := false } else lfs
      if mklinkWorks then
        (true, { db with installed := setEnabledByName db.installed addon_name 1 },
          { linkPresent := true })
      else (false, db, lfs2)
    else (false, db, lfs)

/-- The incoming catalog record handed to `upsert_addon` by a sync. -/
structure AddonData where
  name : String
  repo_url : Option String
  description : Option String
  tags : Option (List String)
  deriving DecidableEq

/-- The SQL predicate `repo_url = ? OR repo_url IS NULL` of `upsert_addon`
under SQLite NULL semantics. -/
def sqlRepoMatch (stored param : Option String) : Bool :=
  match stored, param with
  | none, _ => true
  | some a, some b => a == b
  | some _, none => false

/-- Python's `pat in s` substring test. -/
def hasSub : List Char → List Char → Bool
  | [], pat => pat.isEmpty
  | c :: rest, pat => pat.isPrefixOf (c :: rest) || hasSub rest pat

/-- `Database._detect_host` (db.py lines 194-204). -/
def detect_host (repo_url : String) : String :=
  if repo_url == "" then "other"
  else
    let l := (pyLower repo_url).data
    if hasSub l "github.com".data then "github"
    else if hasSub l "gitlab.com".data then "gitlab"
    else if hasSub l "bitbucket.org".data then "bitbucket"
    else "other"

/-- `Database.upsert_addon` (db.py lines 123-192): on a hit the row's
`repo_url`, `description` and `tags` are overwritten unconditionally;
`override_url` is simply not part of the UPDATE. -/
def upsert_addon (db : Db) (d : AddonData) (now : String) : Db :=
  match db.addons.find? (fun r => r.name == d.name && sqlRepoMatch r.repo_url d.repo_url) with
  | some ex =>
    { db with
      addons :=
        db.addons.map (fun r =>
          if r.id == ex.id then
            { r with repo_url := d.repo_url, description := d.description, tags := d.tags,
                     updated_at_utc := some now }
          else r) }
  | none =>
    { db with
      addons :=
        db.addons ++
          [{ id := db.nextAddonId, name := d.name, repo_url := d.repo_url,
             override_url := none, description := d.description, tags := d.tags,
             folder_names := none, host := some (detect_host (d.repo_url.getD "")),
             created_at_utc := some now, updated_at_utc := some now,
             deleted_at_utc := none }],
      nextAddonId := db.nextAddonId + 1 }

/-- The tag union computed by `list(set(old_tags + new_tags))` in the TUI
resync (tui.py line 1723); the Lean representative is deduplicated, and only
its membership is ever asserted (Python's set order is unspecified). -/
def mergeTags (old new : List String) : List String :=
  (old ++ new).dedup

/-- The stored tags read back for the merge (tui.py lines 1715-1719). -/
def oldTagsOf (addons : List CatalogRow) (n : String) : List String :=
  match addons.find? (fun r => r.name == n) with
  | some r => r.tags.getD []
  | none => []

/-- The per-record step of the TUI wiki resync (tui.py lines 1703-1740):
a live record with a truthy `override_url` receives only a tag merge and a
timestamp bump; every other record goes through `Database.upsert_addon`. -/
def tuiSyncOneAddon (db : Db) (d : AddonData) (now : String) : Db :=
  match db.addons.find? (fun r => r.name == d.name && r.deleted_at_utc.isNone) with
  | some ex =>
    if truthyO ex.override_url then
      let merged := mergeTags (oldTagsOf db.addons d.name) (d.tags.getD [])
      { db with
        addons :=
          db.addons.map (fun r =>
            if r.name == d.name && r.deleted_at_utc.isNone then
              { r with tags := some merged, updated_at_utc := some now }
            else r) }
    else upsert_addon db d now
  | none => upsert_addon db d now

/-- The clone-failure modes of `install_addon_git` that trigger the archive
fallback: a pre-clone exception, a non-zero exit, a timeout, or any other
exception raised before linking begins. -/
def cloneFails (g : GitEnv) : Prop :=
  g.precloneRaises = true ∨ g.clone = CloneOutcome.exitNonzero
    ∨ g.clone = CloneOutcome.timedOut ∨ g.clone = CloneOutcome.raised

/-- Archive-strategy failures that occur before any folder has been marked
installed: no resolvable archive URL, a raising download/extract, zero
manifest folders, or the very first folder's copy raising. -/
def zipFailsClean (z : ZipEnv) : Prop :=
  z.releaseUrl = none ∨ z.downloadRaises = true ∨ z.addonFolders = []
    ∨ ∃ fn p rest, z.addonFolders = (fn, p) :: rest ∧ z.copyRaises fn = true

/-- A git environment in which nothing fails and nothing is linked. -/
def idleGit : GitEnv :=
  { precloneRaises := false, clone := CloneOutcome.ok, linkRaises := false,
    linkedFolders := [], folderVersion := fun _ => "unknown" }

/-- A zip environment in which no archive URL resolves. -/
def idleZip : ZipEnv :=
  { releaseUrl := none, downloadRaises := false, addonFolders := [],
    copyRaises := fun _ => false, folderVersion := fun _ => "unknown" }

/-- An installer configuration with a detected add-on root, used by the
concrete scenarios below. -/
def stdCfg : Config :=
  { hasAddonPath := true, addonPath := "addons" }

/-- C1 scenario: an empty store. -/
def c1Db : Db :=
  { addons := [], installed := [], nextInstalledId := 0, nextAddonId := 0 }

/-- C1 scenario: the clone exits non-zero. -/
def c1Git : GitEnv :=
  { precloneRaises := false, clone := CloneOutcome.exitNonzero, linkRaises := false,
    linkedFolders := [], folderVersion := fun _ => "unknown" }

/-- C1 scenario: the archive resolves and extracts into two folders, and
copying the second one raises. -/
def c1Zip : ZipEnv :=
  { releaseUrl := some "https://github.com/a/x/archive/refs/heads/master.zip",
    downloadRaises := false, addonFolders := [("AlphaUI", "sa"), ("BetaUI", "sb")],
    copyRaises := fun fn => fn == "BetaUI", folderVersion := fun _ => "1.0" }

/-- C1 witness scenario: the archive download itself raises. -/
def c1wZip : ZipEnv :=
  { releaseUrl := some "https://github.com/a/x/archive/refs/heads/master.zip",
    downloadRaises := true, addonFolders := [], copyRaises := fun _ => false,
    folderVersion := fun _ => "1.0" }

/-- C2 scenario: a catalog row for the add-on exists but carries no URL. -/
def c2Db : Db :=
  { addons :=
      [{ id := 0, name := "Foo", repo_url := some "", override_url := none,
         description := none, tags := none, folder_names := none, host := none,
         created_at_utc := none, updated_at_utc := none, deleted_at_utc := none }],
    installed := [], nextInstalledId := 0, nextAddonId := 1 }

/-- C4 scenario: the catalog row's override URL matches the folder's remote,
its primary URL does not. -/
def c4Db : Db :=
  { addons :=
      [{ id := 0, name := "Foo", repo_url := some "github.com/a/x",
         override_url := some "https://github.com/b/y", description := none,
         tags := none, folder_names := none, host := none, created_at_utc := none,
         updated_at_utc := none, deleted_at_utc := none }],
    installed := [], nextInstalledId := 0, nextAddonId := 1 }

/-- C4 scenario: one manifest folder whose git remote is the override URL. -/
def c4Fs : Fs :=
  { rootExists := true,
    folders := [{ fname := "barfolder", hasToc := true,
                  gitUrl := some "https://github.com/b/y", path := "addons/barfolder" }],
    pathExists := fun p => p == "addons/barfolder" }

/-- C4 witness scenario: the folder's remote matches the primary URL. -/
def c4wFs : Fs :=
  { rootExists := true,
    folders := [{ fname := "barfolder", hasToc := true,
                  gitUrl := some "https://github.com/a/x.git", path := "addons/barfolder" }],
    pathExists := fun p => p == "addons/barfolder" }

/-- C5 scenario: one live record whose stored path vanished, while the
matching folder sits at a new path. -/
def c5Db : Db :=
  { addons :=
      [{ id := 0, name := "Foo", repo_url := some "github.com/a/foo",
         override_url := none, description := none, tags := none, folder_names := none,
         host := none, created_at_utc := none, updated_at_utc := none,
         deleted_at_utc := none }],
    installed :=
      [{ id := 0, name := "Foo", version := "1.0", path := "gone",
         installed_at_utc := "t0", last_update_utc := none, enabled := 1,
         source_repo_url := "", deleted_at_utc := none }],
    nextInstalledId := 1, nextAddonId := 1 }

/-- C5 scenario filesystem: only the folder's new path exists. -/
def c5Fs : Fs :=
  { rootExists := true,
    folders := [{ fname := "FooDir", hasToc := true,
                  gitUrl := some "github.com/a/foo", path := "addons/FooDir" }],
    pathExists := fun p => p == "addons/FooDir" }

/-- C5 witness scenario: a store and disk that already agree. -/
def c5wDb : Db :=
  { addons := [],
    installed :=
      [{ id := 0, name := "Solo", version := "1.0", path := "addons/Solo",
         installed_at_utc := "t0", last_update_utc := none, enabled := 1,
         source_repo_url := "", deleted_at_utc := none }],
    nextInstalledId := 1, nextAddonId := 0 }

/-- C5 witness scenario filesystem. -/
def c5wFs : Fs :=
  { rootExists := true,
    folders := [{ fname := "Solo", hasToc := true, gitUrl := none,
                  path := "addons/Solo" }],
    pathExists := fun p => p == "addons/Solo" }

/-- C6/C7 scenario: a single live record registered as "Foo". -/
def c6Db : Db :=
  { addons := [],
    installed :=
      [{ id := 0, name := "Foo", version := "1.0", path := "addons/Foo",
         installed_at_utc := "t0", last_update_utc := none, enabled := 1,
         source_repo_url := "", deleted_at_utc := none }],
    nextInstalledId := 1, nextAddonId := 0 }

/-- C7 scenario: a live record whose backing path is gone. -/
def c7Row : InstalledRow :=
  { id := 0, name := "Foo", version := "1.0", path := "gone",
    installed_at_utc := "t0", last_update_utc := none, enabled := 1,
    source_repo_url := "", deleted_at_utc := none }

/-- C7 scenario store holding just that record. -/
def c7Db : Db :=
  { addons := [], installed := [c7Row], nextInstalledId := 1, nextAddonId := 0 }

/-- C7 scenario: no staging repo and no raising filesystem call. -/
def c7Env : RemoveEnv :=
  { repoFolderExists := false, rmtreeRepoRaises := false, removePathRaises := false }

/-- C8 witness scenario: a catalog row with both a primary and an override URL. -/
def c8Row : CatalogRow :=
  { id := 0, name := "Foo", repo_url := some "github.com/a/primary",
    override_url := some "github.com/b/override", description := none, tags := none,
    folder_names := none, host := none, created_at_utc := none, updated_at_utc := none,
    deleted_at_utc := none }

/-- C8 witness scenario: a catalog row with only a primary URL. -/
def c8Row2 : CatalogRow :=
  { id := 1, name := "Bar", repo_url := some "github.com/a/bar", override_url := some "",
    description := none, tags := none, folder_names := none, host := none,
    created_at_utc := none, updated_at_utc := none, deleted_at_utc := none }

/-- C9 scenario: one enabled live record whose root entry is linked. -/
def c9Db : Db :=
  { addons := [],
    installed :=
      [{ id := 0, name := "Foo", version := "2.1", path := "addons/Foo",
         installed_at_utc := "t0", last_update_utc := none, enabled := 1,
         source_repo_url := "github.com/a/foo", deleted_at_utc := none }],
    nextInstalledId := 1, nextAddonId := 0 }

/-- The fields of an installed record that enable/disable must not touch:
everything except the enabled flag and the timestamps. -/
def frameOf (r : InstalledRow) : String × String × String × String × Option String :=
  (r.name, r.version, r.source_repo_url, r.path, r.deleted_at_utc)

/-- C10 scenario: an operator-overridden catalog row. -/
def c10Cat : CatalogRow :=
  { id := 0, name := "Foo", repo_url := some "github.com/a/foo",
    override_url := some "github.com/op/foo", description := some "operator text",
    tags := some ["a"], folder_names := none, host := some "github",
    created_at_utc := some "t0", updated_at_utc := some "t0", deleted_at_utc := none }

/-- C10 scenario store holding just that row. -/
def c10Db : Db :=
  { addons := [c10Cat], installed := [], nextInstalledId := 0, nextAddonId := 1 }

/-- C10 scenario: the resync record for the same add-on with fresh wiki data. -/
def c10Data : AddonData :=
  { name := "Foo", repo_url := some "github.com/a/foo", description := some "wiki text",
    tags := some ["b"] }

/-- Claim C3 (code bug evidence): evaluation of `_normalize_repo_url` at the
failing input `github.com/foo/tig`. The code's own comment says it removes a
trailing `.git` suffix, but `rstrip('.git')` strips the whole trailing run of
characters from the set, mangling `tig`; the two concrete URLs of the claim do
still agree. -/
theorem normalize_repo_url_overstrips :
    normalize_repo_url "github.com/foo/tig" = "github.com/foo/"
      ∧ "github.com/foo/" ≠ "github.com/foo/tig"
      ∧ normalize_repo_url "https://GitHub.com/Foo/Bar.git" = "github.com/foo/bar"
      ∧ normalize_repo_url "github.com/foo/bar" = "github.com/foo/bar" := by
  refine ⟨by decide, by decide, by decide, by decide⟩


/-- Helper: an archive install whose environment fails before any folder is
marked returns failure and leaves the store untouched. -/
theorem install_zip_clean_failure (cfg : Config) (db : Db) (z : ZipEnv)
    (name : String) (u : Option String) (now : String)
    (hu : truthyO u = true) (hz : zipFailsClean z) :
    install_addon_zip cfg db z name u now = (false, db) := by
  by_cases hp : cfg.hasAddonPath = true
  · have hres : resolveSourceUrl db.addons name u = u := by
      simp [resolveSourceUrl, hu]
    rcases hz with h | h | h | ⟨fn, p, rest, hfold, hcopy⟩
    · simp [install_addon_zip, hp, hres, hu, h]
    · simp [install_addon_zip, hp, hres, hu, h]
      cases z.releaseUrl <;> simp
    · cases hrel : z.releaseUrl with
      | none => simp [install_addon_zip, hp, hres, hu, hrel]
      | some v =>
        by_cases hdl : z.downloadRaises = true
        · simp [install_addon_zip, hp, hres, hu, hrel, hdl]
        · simp [install_addon_zip, hp, hres, hu, hrel, hdl, h]
    · cases hrel : z.releaseUrl with
      | none => simp [install_addon_zip, hp, hres, hu, hrel]
      | some v =>
        by_cases hdl : z.downloadRaises = true
        · simp [install_addon_zip, hp, hres, hu, hrel, hdl]
        · simp [install_addon_zip, hp, hres, hu, hrel, hdl, hfold, zipLoop, hcopy]
  · have hp' : cfg.hasAddonPath = false := by simpa using hp
    simp [install_addon_zip, hp']

/-- Claim C1 (counterexample): with a failing clone and an archive extract
holding two folders whose second copy raises, both strategies fail (the call
returns failure) and yet one live `InstalledRecord` row for the attempt has
already been written and committed. -/
theorem install_git_both_fail_leftover_record :
    (install_addon_git stdCfg c1Db c1Git c1Zip "Xaddon"
        (some "https://github.com/a/x") "t1").1 = false
      ∧ ((install_addon_git stdCfg c1Db c1Git c1Zip "Xaddon"
            (some "https://github.com/a/x") "t1").2.installed.filter
          (fun r => r.deleted_at_utc.isNone)).length = 1 := by
  exact ⟨by decide, by decide⟩

/-- Claim C1 (amended): every clone failure mode falls back to the archive
strategy with the resolved URL; and when the archive strategy also fails
before any folder has been marked installed, the whole call returns failure
with the installed table unchanged. (A copy failure after earlier folders
succeeded leaves their committed records in place, as the counterexample
shows.) -/
theorem install_git_fallback_and_clean_failure (cfg : Config) (db : Db)
    (g : GitEnv) (z : ZipEnv) (name : String) (arg : Option String) (now : String)
    (hurl : truthyO (resolveSourceUrl db.addons name arg) = true)
    (hclone : cloneFails g) :
    install_addon_git cfg db g z name arg now
        = install_addon_zip cfg db z name (resolveSourceUrl db.addons name arg) now
      ∧ (zipFailsClean z → install_addon_git cfg db g z name arg now = (false, db)) := by
  by_cases hp : cfg.hasAddonPath = true
  · have hgit : install_addon_git cfg db g z name arg now
        = install_addon_zip cfg db z name (resolveSourceUrl db.addons name arg) now := by
      rcases hclone with h | h | h | h
      · simp [install_addon_git, hp, hurl, h]
      all_goals
        cases hpre : g.precloneRaises <;> simp [install_addon_git, hp, hurl, h, hpre]
    refine ⟨hgit, fun hz => ?_⟩
    rw [hgit]
    exact install_zip_clean_failure cfg db z name _ now hurl hz
  · have hp' : cfg.hasAddonPath = false := by simpa using hp
    constructor
    · simp [install_addon_git, install_addon_zip, hp']
    · intro _
      simp [install_addon_git, hp']

/-- Claim C1 (witness for the amended theorem): concrete failing clone with a
raising archive download. -/
theorem install_git_fallback_and_clean_failure_witness :
    install_addon_git stdCfg c1Db c1Git c1wZip "Xaddon"
        (some "https://github.com/a/x") "t1"
        = install_addon_zip stdCfg c1Db c1wZip "Xaddon"
            (resolveSourceUrl c1Db.addons "Xaddon" (some "https://github.com/a/x")) "t1"
      ∧ install_addon_git stdCfg c1Db c1Git c1wZip "Xaddon"
          (some "https://github.com/a/x") "t1" = (false, c1Db) := by
  have h := install_git_fallback_and_clean_failure stdCfg c1Db c1Git c1wZip "Xaddon"
    (some "https://github.com/a/x") "t1" (by decide) (Or.inr (Or.inl (by decide)))
  exact ⟨h.1, h.2 (Or.inr (Or.inl (by decide)))⟩

/-- Claim C2: with no explicit URL argument and no truthy override or primary
URL on any catalog row of that name, `install_addon` (either strategy)
returns failure and leaves the whole store - in particular the installed
table - unchanged. -/
theorem install_no_url_fails_no_write (cfg : Config) (db : Db) (g : GitEnv)
    (z : ZipEnv) (name now : String) (use_git : Bool)
    (h : ∀ r ∈ db.addons, r.name = name →
      truthyO r.override_url = false ∧ truthyO r.repo_url = false) :
    install_addon cfg db g z name none now use_git = (false, db) := by
  have hres : truthyO (resolveSourceUrl db.addons name none) = false := by
    cases hf : db.addons.find? (fun r => r.name == name) with
    | none => simp [resolveSourceUrl, hf, truthyO]
    | some r =>
      have hr := List.mem_of_find?_eq_some hf
      have hname : r.name = name := by
        have := List.find?_some hf
        simpa using this
      obtain ⟨ho, hrp⟩ := h r hr hname
      have hnone : truthyO (none : Option String) = false := rfl
      simp [resolveSourceUrl, hf, ho, hrp, hnone]
  by_cases hp : cfg.hasAddonPath = true
  · cases use_git <;>
      simp [install_addon, install_addon_git, install_addon_zip, hp, hres]
  · have hp' : cfg.hasAddonPath = false := by simpa using hp
    cases use_git <;>
      simp [install_addon, install_addon_git, install_addon_zip, hp']

/-- Claim C2 (witness): catalog row "Foo" exists with an empty primary URL
and no override; the install fails and writes nothing. -/
theorem install_no_url_fails_no_write_witness :
    install_addon stdCfg c2Db idleGit idleZip "Foo" none "t1" true = (false, c2Db) := by
  exact install_no_url_fails_no_write stdCfg c2Db idleGit idleZip "Foo" "t1" true (by decide)

/-- Claim C8: source-URL resolution precedence as implemented by both install
strategies - a truthy explicit argument wins; otherwise a truthy override URL
of the catalog row wins over the primary URL; otherwise the primary URL is
used. -/
theorem resolve_source_url_precedence (addons : List CatalogRow) (name : String)
    (arg : Option String) (r : CatalogRow) :
    (truthyO arg = true → resolveSourceUrl addons name arg = arg)
      ∧ (truthyO arg = false → addons.find? (fun x => x.name == name) = some r →
          truthyO r.override_url = true → resolveSourceUrl addons name arg = r.override_url)
      ∧ (truthyO arg = false → addons.find? (fun x => x.name == name) = some r →
          truthyO r.override_url = false → resolveSourceUrl addons name arg = r.repo_url) := by
  refine ⟨fun ht => by simp [resolveSourceUrl, ht],
    fun ht hf ho => by simp [resolveSourceUrl, ht, hf, ho],
    fun ht hf ho => by simp [resolveSourceUrl, ht, hf, ho]⟩

/-- Claim C8 (witness): the three precedence cases at concrete inputs. -/
theorem resolve_source_url_precedence_witness :
    resolveSourceUrl [c8Row] "Foo" (some "github.com/x/explicit")
        = some "github.com/x/explicit"
      ∧ resolveSourceUrl [c8Row] "Foo" none = c8Row.override_url
      ∧ resolveSourceUrl [c8Row2] "Bar" none = c8Row2.repo_url := by
  refine ⟨(resolve_source_url_precedence [c8Row] "Foo"
      (some "github.com/x/explicit") c8Row).1 (by decide),
    (resolve_source_url_precedence [c8Row] "Foo" none c8Row).2.1
      (by decide) (by decide) (by decide),
    (resolve_source_url_precedence [c8Row2] "Bar" none c8Row2).2.2
      (by decide) (by decide) (by decide)⟩

/-- Claim C6 (counterexample): `mark_installed` checks for an existing record
with a case-sensitive SQL comparison, so installing "foo" while "Foo" is live
creates a second live record differing only in name case. -/
theorem mark_installed_case_duplicate :
    ((mark_installed stdCfg c6Db "foo" "2.0" "u" "addons/foo" "t1").installed.map
        (fun r => r.name)) = ["Foo", "foo"]
      ∧ ((mark_installed stdCfg c6Db "foo" "2.0" "u" "addons/foo" "t1").installed.filter
          (fun r => pyLower r.name == "foo" && r.deleted_at_utc.isNone)).length = 2
      ∧ c6Db.installed.length = 1 := by
  exact ⟨by decide, by decide, by decide⟩

/-- Claim C6 (amended): read-side lookups through `get_installed_addons` are
case-insensitive; `mark_installed` updates in place (creating no new row)
exactly when a live record with the same exact-case name exists, and inserts
a fresh live row named exactly as given otherwise - so an install under a
name differing only in case from an existing record duplicates it, as the
counterexample shows. -/
theorem case_insensitive_lookup_and_exact_update :
    (∀ (tbl : List InstalledRow) (n m : String),
        pyLower n = pyLower m → is_installed tbl n = is_installed tbl m)
      ∧ (∀ (cfg : Config) (db : Db) (name version url path now : String),
          (db.installed.find? (fun r => r.name == name && r.deleted_at_utc.isNone)).isSome
              = true →
          (mark_installed cfg db name version url path now).installed.length
              = db.installed.length)
      ∧ (∀ (cfg : Config) (db : Db) (name version url path now : String),
          db.installed.find? (fun r => r.name == name && r.deleted_at_utc.isNone) = none →
          ∃ r, (mark_installed cfg db name version url path now).installed
                = db.installed ++ [r] ∧ r.name = name ∧ r.deleted_at_utc = none) := by
  refine ⟨?_, ?_, ?_⟩
  · intro tbl n m h
    simp [is_installed, h]
  · intro cfg db name version url path now h
    cases hf : db.installed.find? (fun r => r.name == name && r.deleted_at_utc.isNone) with
    | none => rw [hf] at h; simp at h
    | some ex => simp [mark_installed, hf]
  · intro cfg db name version url path now hf
    refine ⟨({ id := db.nextInstalledId, name := name, version := version,
               path := if path == "" && cfg.hasAddonPath then cfg.addonPath ++ "/" ++ name
                 else path,
               installed_at_utc := now, last_update_utc := none, enabled := 1,
               source_repo_url := url, deleted_at_utc := none } : InstalledRow),
      ?_, rfl, rfl⟩
    simp [mark_installed, hf]

/-- Claim C6 (witness): the three amended facts at concrete inputs. -/
theorem case_insensitive_lookup_and_exact_update_witness :
    is_installed c6Db.installed "FOO" = is_installed c6Db.installed "foo"
      ∧ (mark_installed stdCfg c6Db "Foo" "2.0" "u" "p" "t1").installed.length
          = c6Db.installed.length
      ∧ ∃ r, (mark_installed stdCfg c6Db "foo" "2.0" "u" "p" "t1").installed
            = c6Db.installed ++ [r] ∧ r.name = "foo" ∧ r.deleted_at_utc = none := by
  refine ⟨case_insensitive_lookup_and_exact_update.1 c6Db.installed "FOO" "foo" (by decide),
    case_insensitive_lookup_and_exact_update.2.1 stdCfg c6Db "Foo" "2.0" "u" "p" "t1"
      (by decide),
    case_insensitive_lookup_and_exact_update.2.2 stdCfg c6Db "foo" "2.0" "u" "p" "t1"
      (by decide)⟩

/-- Helper: after the soft-delete UPDATE of `remove_addon`, no row carrying
exactly the removed name is still live. -/
theorem softDeleteByName_dead (tbl : List InstalledRow) (n now : String) :
    ∀ r ∈ softDeleteByName tbl n now, r.name = n → r.deleted_at_utc.isSome = true := by
  intro r hr hrn
  simp only [softDeleteByName, List.mem_map] at hr
  obtain ⟨r0, hr0, hEq⟩ := hr
  by_cases hc : (r0.name == n && r0.deleted_at_utc.isNone) = true
  · rw [← hEq]
    simp [hc]
  · rw [← hEq, if_neg hc] at hrn
    rw [← hEq, if_neg hc]
    cases hd : r0.deleted_at_utc with
    | some d => simp [hd]
    | none =>
      exact absurd (by simp [hrn, hd] : (r0.name == n && r0.deleted_at_utc.isNone) = true) hc

/-- Claim C7 (counterexample): `remove_addon` finds the record with a
case-insensitive lookup but soft-deletes with a case-sensitive UPDATE, so
removing "FOO" while the record is stored as "Foo" reports success and
leaves the record live and the store unchanged. -/
theorem remove_addon_case_mismatch_no_softdelete :
    remove_addon stdCfg c7Db c7Env (fun _ => false) "FOO" "t1" = (true, c7Db)
      ∧ (c7Db.installed.map (fun r => r.deleted_at_utc)) = [none] := by
  exact ⟨by decide, by decide⟩

/-- Claim C7 (amended): when `remove_addon` is invoked with the record's
exact stored name, success always soft-deletes every live row of that name
(including when the backing path no longer exists, which still succeeds),
and a raising filesystem removal aborts with failure and the store - in
particular the record's deleted_at timestamp - untouched.  With a name
differing only in case, the call can succeed without soft-deleting, as the
counterexample shows. -/
theorem remove_addon_exact_name_behavior (cfg : Config) (db : Db) (env : RemoveEnv)
    (pe : String → Bool) (name now : String) (v : InstalledRow)
    (hv : dictGet (getInstalled db.installed) (pyLower name) = some v)
    (_hn : v.name = name) :
    ((remove_addon cfg db env pe name now).1 = true →
        ∀ r ∈ (remove_addon cfg db env pe name now).2.installed,
          r.name = name → r.deleted_at_utc.isSome = true)
      ∧ (cfg.hasAddonPath = true → env.repoFolderExists = false → pe v.path = false →
          (remove_addon cfg db env pe name now).1 = true)
      ∧ ((env.repoFolderExists = true ∧ env.rmtreeRepoRaises = true)
            ∨ (env.repoFolderExists = false ∧ pe v.path = true
                ∧ env.removePathRaises = true) →
          remove_addon cfg db env pe name now = (false, db)) := by
  by_cases hp : cfg.hasAddonPath = true
  · refine ⟨?_, ?_, ?_⟩
    · have hdel : ∀ r ∈ softDeleteByName db.installed name now,
          r.name = name → r.deleted_at_utc.isSome = true :=
        softDeleteByName_dead db.installed name now
      cases hrf : env.repoFolderExists with
      | true =>
        cases hrt : env.rmtreeRepoRaises with
        | true =>
          intro hsucc
          have hres : remove_addon cfg db env pe name now = (false, db) := by
            simp [remove_addon, hp, hv, hrf, hrt]
          rw [hres] at hsucc
          simp at hsucc
        | false =>
          intro _ r hr hrn
          have hres : remove_addon cfg db env pe name now
              = (true, { db with installed := softDeleteByName db.installed name now }) := by
            simp [remove_addon, hp, hv, hrf, hrt]
          rw [hres] at hr
          exact hdel r hr hrn
      | false =>
        cases hpe : pe v.path with
        | true =>
          cases hrm : env.removePathRaises with
          | true =>
            intro hsucc
            have hres : remove_addon cfg db env pe name now = (false, db) := by
              simp [remove_addon, hp, hv, hrf, hpe, hrm]
            rw [hres] at hsucc
            simp at hsucc
          | false =>
            intro _ r hr hrn
            have hres : remove_addon cfg db env pe name now
                = (true, { db with installed := softDeleteByName db.installed name now }) := by
              simp [remove_addon, hp, hv, hrf, hpe, hrm]
            rw [hres] at hr
            exact hdel r hr hrn
        | false =>
          intro _ r hr hrn
          have hres : remove_addon cfg db env pe name now
              = (true, { db with installed := softDeleteByName db.installed name now }) := by
            simp [remove_addon, hp, hv, hrf, hpe]
          rw [hres] at hr
          exact hdel r hr hrn
    · intro _ hrf hpe
      simp [remove_addon, hp, hv, hrf, hpe]
    · rintro (⟨hrf, hrt⟩ | ⟨hrf, hpe, hrm⟩)
      · simp [remove_addon, hp, hv, hrf, hrt]
      · simp [remove_addon, hp, hv, hrf, hpe, hrm]
  · have hp' : cfg.hasAddonPath = false := by simpa using hp
    refine ⟨?_, ?_, ?_⟩
    · intro hsucc
      rw [remove_addon] at hsucc
      simp [hp'] at hsucc
    · intro hcontra
      rw [hcontra] at hp'
      simp at hp'
    · intro _
      simp [remove_addon, hp']

/-- Claim C7 (witness): with the exact stored name, removal of a record whose
path is gone succeeds, and a raising removal aborts unchanged. -/
theorem remove_addon_exact_name_behavior_witness :
    (remove_addon stdCfg c7Db c7Env (fun _ => false) "Foo" "t1").1 = true
      ∧ remove_addon stdCfg c7Db
          { repoFolderExists := false, rmtreeRepoRaises := false, removePathRaises := true }
          (fun _ => true) "Foo" "t1" = (false, c7Db) := by
  refine ⟨(remove_addon_exact_name_behavior stdCfg c7Db c7Env (fun _ => false) "Foo" "t1"
      c7Row (by decide) (by decide)).2.1 rfl (by decide) rfl, ?_⟩
  exact (remove_addon_exact_name_behavior stdCfg c7Db
      { repoFolderExists := false, rmtreeRepoRaises := false, removePathRaises := true }
      (fun _ => true) "Foo" "t1" c7Row (by decide) (by decide)).2.2
    (Or.inr ⟨rfl, rfl, rfl⟩)


/-- Helper: the enable/disable UPDATE touches only the `enabled` column. -/
theorem map_frame_setEnabled (tbl : List InstalledRow) (n : String) (v : Nat) :
    (setEnabledByName tbl n v).map frameOf = tbl.map frameOf := by
  unfold setEnabledByName
  rw [List.map_map]
  apply List.map_congr_left
  intro r _
  by_cases hc : (r.name == n && r.deleted_at_utc.isNone) = true
  · simp [Function.comp, hc, frameOf]
  · simp [Function.comp, hc, frameOf]

/-- Helper: two consecutive enabled-flag updates collapse to the second. -/
theorem setEnabled_setEnabled (tbl : List InstalledRow) (n : String) (a b : Nat) :
    setEnabledByName (setEnabledByName tbl n a) n b = setEnabledByName tbl n b := by
  unfold setEnabledByName
  rw [List.map_map]
  apply List.map_congr_left
  intro r _
  by_cases hc : (r.name == n && r.deleted_at_utc.isNone) = true
  · simp [Function.comp, hc]
  · simp [Function.comp, hc]

/-- Helper: setting the enabled flag does not change whether the
enable/disable SELECT finds a live record of that name. -/
theorem find_live_setEnabled (tbl : List InstalledRow) (n : String) (v : Nat) :
    ((setEnabledByName tbl n v).find?
        (fun r => r.name == n && r.deleted_at_utc.isNone)).isSome
      = (tbl.find? (fun r => r.name == n && r.deleted_at_utc.isNone)).isSome := by
  unfold setEnabledByName
  have hfun : ((fun r : InstalledRow => r.name == n && r.deleted_at_utc.isNone) ∘
        (fun r : InstalledRow =>
          if r.name == n && r.deleted_at_utc.isNone then { r with enabled := v } else r))
      = fun r : InstalledRow => r.name == n && r.deleted_at_utc.isNone := by
    funext r
    by_cases hc : (r.name == n && r.deleted_at_utc.isNone) = true
    · simp [Function.comp, hc]
    · simp [Function.comp, hc]
  rw [List.find?_map, hfun]
  cases tbl.find? (fun r => r.name == n && r.deleted_at_utc.isNone) <;> rfl

/-- Claim C9 (counterexample): disabling while the junction removal fails
(`rmdir` is run with `check=False`) still reports success and flips the
enabled flag to 0, although the directory link is still present - the flag
is not updated "only after the filesystem link operation succeeds". -/
theorem disable_flag_flips_despite_rmdir_failure :
    (disable_addon c9Db { linkPresent := true } false "Foo").1 = true
      ∧ (disable_addon c9Db { linkPresent := true } false "Foo").2.2.linkPresent = true
      ∧ ((disable_addon c9Db { linkPresent := true } false "Foo").2.1.installed.map
          (fun r => r.enabled)) = [0] := by
  exact ⟨by decide, by decide, by decide⟩

/-- Claim C9 (amended): enable/disable change nothing but the link and the
enabled flag - name, version, source URL, path and liveness are preserved;
a failing enable leaves the store untouched (its `mklink` runs with
`check=True`); disable flips the flag to 0 regardless of whether the link
removal worked; and enable-disable-enable with working filesystem calls
restores the state after the first enable, with the link present and
`enabled = 1`. -/
theorem enable_disable_frame_and_order (db : Db) (lfs : LinkFs) (name : String)
    (rmW reE preW mkW : Bool) :
    ((disable_addon db lfs rmW name).2.1.installed.map frameOf
        = db.installed.map frameOf)
      ∧ ((enable_addon db lfs reE preW mkW name).2.1.installed.map frameOf
          = db.installed.map frameOf)
      ∧ ((enable_addon db lfs reE preW mkW name).1 = false →
          (enable_addon db lfs reE preW mkW name).2.1 = db)
      ∧ ((db.installed.find?
            (fun r => r.name == name && r.deleted_at_utc.isNone)).isSome = true →
          (disable_addon db lfs rmW name).1 = true
            ∧ (disable_addon db lfs rmW name).2.1
                = { db with installed := setEnabledByName db.installed name 0 })
      ∧ ((db.installed.find?
            (fun r => r.name == name && r.deleted_at_utc.isNone)).isSome = true →
          enable_addon
              (disable_addon (enable_addon db lfs true true true name).2.1
                (enable_addon db lfs true true true name).2.2 true name).2.1
              (disable_addon (enable_addon db lfs true true true name).2.1
                (enable_addon db lfs true true true name).2.2 true name).2.2
              true true true name
            = enable_addon db lfs true true true name
          ∧ (enable_addon db lfs true true true name).1 = true
          ∧ (enable_addon db lfs true true true name).2.2.linkPresent = true) := by
  refine ⟨?_, ?_, ?_, ?_, ?_⟩
  · cases hf : db.installed.find? (fun r => r.name == name && r.deleted_at_utc.isNone) with
    | none => simp [disable_addon, hf]
    | some x => simp [disable_addon, hf, map_frame_setEnabled]
  · cases hf : db.installed.find? (fun r => r.name == name && r.deleted_at_utc.isNone) with
    | none => simp [enable_addon, hf]
    | some x =>
      cases hre : reE with
      | false => simp [enable_addon, hf, hre]
      | true =>
        cases hmk : mkW with
        | false => simp [enable_addon, hf, hre, hmk]
        | true => simp [enable_addon, hf, hre, hmk, map_frame_setEnabled]
  · cases hf : db.installed.find? (fun r => r.name == name && r.deleted_at_utc.isNone) with
    | none => intro _; simp [enable_addon, hf]
    | some x =>
      cases hre : reE with
      | false => intro _; simp [enable_addon, hf, hre]
      | true =>
        cases hmk : mkW with
        | false => intro _; simp [enable_addon, hf, hre, hmk]
        | true =>
          intro hfalse
          rw [enable_addon] at hfalse
          simp [hf, hre, hmk] at hfalse
  · intro hfind
    obtain ⟨x, hx⟩ := Option.isSome_iff_exists.mp hfind
    exact ⟨by simp [disable_addon, hx], by simp [disable_addon, hx]⟩
  · intro hfind
    obtain ⟨x, hx⟩ := Option.isSome_iff_exists.mp hfind
    have h1 : enable_addon db lfs true true true name
        = (true, { db with installed := setEnabledByName db.installed name 1 },
           { linkPresent := true }) := by
      simp [enable_addon, hx]
    have hf2 : ((setEnabledByName db.installed name 1).find?
        (fun r => r.name == name && r.deleted_at_utc.isNone)).isSome = true := by
      rw [find_live_setEnabled]
      exact hfind
    obtain ⟨y, hy⟩ := Option.isSome_iff_exists.mp hf2
    have h2 : disable_addon { db with installed := setEnabledByName db.installed name 1 }
        { linkPresent := true } true name
        = (true,
           { db with
             installed := setEnabledByName (setEnabledByName db.installed name 1) name 0 },
           { linkPresent := false }) := by
      simp [disable_addon, hy]
    have hf3 : ((setEnabledByName (setEnabledByName db.installed name 1) name 0).find?
        (fun r => r.name == name && r.deleted_at_utc.isNone)).isSome = true := by
      rw [find_live_setEnabled, find_live_setEnabled]
      exact hfind
    obtain ⟨w, hw⟩ := Option.isSome_iff_exists.mp hf3
    have h3 : enable_addon
        { db with
          installed := setEnabledByName (setEnabledByName db.installed name 1) name 0 }
        { linkPresent := false } true true true name
        = (true,
           { db with
             installed := setEnabledByName (setEnabledByName (setEnabledByName db.installed name 1) name 0) name 1 },
           { linkPresent := true }) := by
      simp [enable_addon, hw]
    refine ⟨?_, by rw [h1], by rw [h1]⟩
    rw [h1]
    dsimp only
    rw [h2]
    dsimp only
    rw [h3, setEnabled_setEnabled, setEnabled_setEnabled]

/-- Claim C9 (witness): the amended facts at a concrete enabled record. -/
theorem enable_disable_frame_and_order_witness :
    ((disable_addon c9Db { linkPresent := true } true "Foo").2.1.installed.map frameOf
        = c9Db.installed.map frameOf)
      ∧ (disable_addon c9Db { linkPresent := true } true "Foo").1 = true
      ∧ (enable_addon c9Db { linkPresent := true } true true true "Foo").2.2.linkPresent
          = true := by
  have h := enable_disable_frame_and_order c9Db { linkPresent := true } "Foo" true true true true
  exact ⟨h.1, (h.2.2.2.1 (by decide)).1, (h.2.2.2.2 (by decide)).2.2⟩

/-- Claim C10 (counterexample): `Database.upsert_addon` on an existing record
whose override URL is set overwrites its primary URL, description and tags
with the incoming values - the description changes and the tag set is
replaced, not merged. -/
theorem upsert_overwrites_overridden_record :
    (c10Db.addons.map (fun r => r.override_url)) = [some "github.com/op/foo"]
      ∧ (c10Db.addons.map (fun r => r.description)) = [some "operator text"]
      ∧ ((upsert_addon c10Db c10Data "t1").addons.map (fun r => r.description))
          = [some "wiki text"]
      ∧ ((upsert_addon c10Db c10Data "t1").addons.map (fun r => r.tags)) = [some ["b"]] := by
  exact ⟨by decide, by decide, by decide, by decide⟩

/-- Claim C10 (amended): `upsert_addon` itself always preserves the
`override_url` column (it is absent from both its UPDATE and its INSERT of
operator overrides), but overwrites `repo_url`, `description` and `tags`
regardless of the override; the override-preserving behaviour lives in the
TUI resync step, which for a live record with a truthy override URL merges
only the tag set (the merged set is exactly the union) and leaves the
record's name, primary URL, description and override URL unchanged. -/
theorem resync_override_preservation_amended :
    (∀ (db : Db) (d : AddonData) (now : String) (r2 : CatalogRow),
        r2 ∈ (upsert_addon db d now).addons →
        (∃ r ∈ db.addons, r2.override_url = r.override_url) ∨ r2.override_url = none)
      ∧ (∀ (db : Db) (d : AddonData) (now : String) (ex : CatalogRow),
          db.addons.find? (fun r => r.name == d.name && r.deleted_at_utc.isNone) = some ex →
          truthyO ex.override_url = true →
          (∀ r2 ∈ (tuiSyncOneAddon db d now).addons, ∃ r ∈ db.addons,
              r2.name = r.name ∧ r2.repo_url = r.repo_url ∧ r2.description = r.description
                ∧ r2.override_url = r.override_url)
            ∧ ∀ r2 ∈ (tuiSyncOneAddon db d now).addons, r2.name = d.name →
                r2.deleted_at_utc = none →
                r2.tags = some (mergeTags (oldTagsOf db.addons d.name) (d.tags.getD [])))
      ∧ (∀ (old nw : List String) (t : String), t ∈ mergeTags old nw ↔ t ∈ old ∨ t ∈ nw) := by
  refine ⟨?_, ?_, ?_⟩
  · intro db d now r2 hr2
    cases hf : db.addons.find?
        (fun r => r.name == d.name && sqlRepoMatch r.repo_url d.repo_url) with
    | some ex =>
      simp only [upsert_addon, hf] at hr2
      rw [List.mem_map] at hr2
      obtain ⟨r, hr, hEq⟩ := hr2
      refine Or.inl ⟨r, hr, ?_⟩
      rw [← hEq]
      by_cases hid : (r.id == ex.id) = true
      · simp [hid]
      · simp [hid]
    | none =>
      simp only [upsert_addon, hf] at hr2
      rw [List.mem_append] at hr2
      rcases hr2 with h | h
      · exact Or.inl ⟨r2, h, rfl⟩
      · rw [List.mem_singleton] at h
        subst h
        exact Or.inr rfl
  · intro db d now ex hf ho
    constructor
    · intro r2 hr2
      simp only [tuiSyncOneAddon, hf, ho, if_true] at hr2
      rw [List.mem_map] at hr2
      obtain ⟨r, hr, hEq⟩ := hr2
      refine ⟨r, hr, ?_⟩
      rw [← hEq]
      by_cases hc : (r.name == d.name && r.deleted_at_utc.isNone) = true
      · simp [hc]
      · simp [hc]
    · intro r2 hr2 hname hlive
      simp only [tuiSyncOneAddon, hf, ho, if_true] at hr2
      rw [List.mem_map] at hr2
      obtain ⟨r, hr, hEq⟩ := hr2
      by_cases hc : (r.name == d.name && r.deleted_at_utc.isNone) = true
      · rw [← hEq]
        simp [hc]
      · rw [← hEq, if_neg hc] at hname hlive
        exact absurd (by simp [hname, hlive] :
          (r.name == d.name && r.deleted_at_utc.isNone) = true) hc
  · intro old nw t
    simp [mergeTags, List.mem_dedup, List.mem_append]

/-- Claim C10 (witness): the amended facts at the concrete overridden row. -/
theorem resync_override_preservation_amended_witness :
    ((∃ r ∈ c10Db.addons,
        ({ c10Cat with repo_url := some "github.com/a/foo",
                       description := some "wiki text", tags := some ["b"],
                       updated_at_utc := some "t1" } : CatalogRow).override_url
          = r.override_url)
      ∨ ({ c10Cat with repo_url := some "github.com/a/foo",
                       description := some "wiki text", tags := some ["b"],
                       updated_at_utc := some "t1" } : CatalogRow).override_url = none)
      ∧ (∃ r ∈ c10Db.addons,
          ({ c10Cat with tags := some (mergeTags ["a"] ["b"]),
                         updated_at_utc := some "t1" } : CatalogRow).name = r.name
            ∧ ({ c10Cat with tags := some (mergeTags ["a"] ["b"]),
                             updated_at_utc := some "t1" } : CatalogRow).repo_url = r.repo_url
            ∧ ({ c10Cat with tags := some (mergeTags ["a"] ["b"]),
                             updated_at_utc := some "t1" } : CatalogRow).description
                = r.description
            ∧ ({ c10Cat with tags := some (mergeTags ["a"] ["b"]),
                             updated_at_utc := some "t1" } : CatalogRow).override_url
                = r.override_url)
      ∧ ("b" ∈ mergeTags ["a"] ["b"] ↔ "b" ∈ (["a"] : List String)
            ∨ "b" ∈ (["b"] : List String)) := by
  refine ⟨resync_override_preservation_amended.1 c10Db c10Data "t1" _ (by decide), ?_,
    resync_override_preservation_amended.2.2 ["a"] ["b"] "b"⟩
  exact (resync_override_preservation_amended.2.1 c10Db c10Data "t1" c10Cat
      (by decide) (by decide)).1 _ (by decide)

/-- Helper: membership after a dict assignment. -/
theorem mem_dictInsert {β : Type} (d : List (String × β)) (k : String) (v : β)
    (p : String × β) : p ∈ dictInsert d k v → p ∈ d ∨ p = (k, v) := by
  induction d with
  | nil =>
    intro h
    rw [dictInsert] at h
    rcases List.mem_singleton.mp h with h2
    exact Or.inr h2
  | cons q rest ih =>
    intro h
    rw [dictInsert] at h
    by_cases hq : (q.1 == k) = true
    · rw [if_pos hq] at h
      rcases List.mem_cons.mp h with h2 | h2
      · exact Or.inr h2
      · exact Or.inl (List.mem_cons_of_mem q h2)
    · rw [if_neg hq] at h
      rcases List.mem_cons.mp h with h2 | h2
      · exact Or.inl (by rw [h2]; exact List.mem_cons_self q rest)
      · rcases ih h2 with h3 | h3
        · exact Or.inl (List.mem_cons_of_mem q h3)
        · exact Or.inr h3

/-- Helper: looking up the key just assigned returns the assigned value. -/
theorem dictGet_dictInsert_self {β : Type} (d : List (String × β)) (k : String) (v : β) :
    dictGet (dictInsert d k v) k = some v := by
  induction d with
  | nil => simp [dictInsert, dictGet]
  | cons q rest ih =>
    by_cases hq : (q.1 == k) = true
    · simp [dictInsert, hq, dictGet]
    · simp [dictInsert, hq, dictGet, ih]

/-- Helper: a dict assignment leaves other keys' lookups unchanged. -/
theorem dictGet_dictInsert_ne {β : Type} (d : List (String × β)) (k k' : String) (v : β)
    (h : ¬ k' = k) : dictGet (dictInsert d k v) k' = dictGet d k' := by
  induction d with
  | nil =>
    have hne : ¬ (k == k') = true := by
      simp only [beq_iff_eq]
      exact fun hkk => h hkk.symm
    simp [dictInsert, dictGet, hne]
  | cons q rest ih =>
    by_cases hq : (q.1 == k) = true
    · have hqk : q.1 = k := by simpa using hq
      have h1 : ¬ (k == k') = true := by
        simp only [beq_iff_eq]
        exact fun hkk => h hkk.symm
      have h2 : ¬ (q.1 == k') = true := by
        rw [hqk]
        exact h1
      simp [dictInsert, hq, dictGet, h1, h2]
    · by_cases hq' : (q.1 == k') = true
      · simp [dictInsert, hq, dictGet, hq']
      · simp [dictInsert, hq, dictGet, hq', ih]

/-- Helper: an absent key means no pair of the dict carries it. -/
theorem dictGet_none_forall {β : Type} (d : List (String × β)) (k : String)
    (h : dictGet d k = none) : ∀ p ∈ d, ¬ p.1 = k := by
  induction d with
  | nil => intro p hp; cases hp
  | cons q rest ih =>
    intro p hp
    rw [dictGet] at h
    by_cases hq : (q.1 == k) = true
    · rw [if_pos hq] at h
      cases h
    · rw [if_neg hq] at h
      rcases List.mem_cons.mp hp with h2 | h2
      · rw [h2]
        simpa using hq
      · exact ih h p h2

/-- Helper: a successful lookup exhibits a member of the dict. -/
theorem dictGet_mem {β : Type} (d : List (String × β)) (k : String) (v : β)
    (h : dictGet d k = some v) : (k, v) ∈ d := by
  induction d with
  | nil => cases h
  | cons q rest ih =>
    rw [dictGet] at h
    by_cases hq : (q.1 == k) = true
    · rw [if_pos hq] at h
      have hqk : q.1 = k := by simpa using hq
      have hv : q.2 = v := by injection h
      have : q = (k, v) := by
        rw [← hqk, ← hv]
      rw [← this]
      exact List.mem_cons_self q rest
    · rw [if_neg hq] at h
      exact List.mem_cons_of_mem q (ih h)

/-- Helper: members of a dict built by a fold of assignments are either from
the seed or keyed values of the folded list. -/
theorem mem_foldl_dictInsert {α β : Type} (key : α → String) (val : α → β) :
    ∀ (l : List α) (d : List (String × β)) (p : String × β),
      p ∈ l.foldl (fun d x => dictInsert d (key x) (val x)) d →
      p ∈ d ∨ ∃ x ∈ l, p = (key x, val x) := by
  intro l
  induction l with
  | nil => intro d p h; exact Or.inl h
  | cons x rest ih =>
    intro d p h
    rw [List.foldl_cons] at h
    rcases ih (dictInsert d (key x) (val x)) p h with h2 | ⟨y, hy, hpy⟩
    · rcases mem_dictInsert d (key x) (val x) p h2 with h3 | h3
      · exact Or.inl h3
      · exact Or.inr ⟨x, List.mem_cons_self x rest, h3⟩
    · exact Or.inr ⟨y, List.mem_cons_of_mem x hy, hpy⟩

/-- Helper: a key present before a fold of assignments is still present after. -/
theorem dictGet_isSome_foldl_preserved {α β : Type} (key : α → String) (val : α → β) :
    ∀ (l : List α) (d : List (String × β)) (k : String),
      (dictGet d k).isSome = true →
      (dictGet (l.foldl (fun d x => dictInsert d (key x) (val x)) d) k).isSome = true := by
  intro l
  induction l with
  | nil => intro d k h; exact h
  | cons x rest ih =>
    intro d k h
    rw [List.foldl_cons]
    apply ih
    by_cases hk : k = key x
    · rw [hk, dictGet_dictInsert_self]
      rfl
    · rw [dictGet_dictInsert_ne _ _ _ _ hk]
      exact h

/-- Helper: folding assignments over a list makes every folded key present. -/
theorem dictGet_isSome_foldl_mem {α β : Type} (key : α → String) (val : α → β) :
    ∀ (l : List α) (d : List (String × β)) (x : α),
      x ∈ l →
      (dictGet (l.foldl (fun d y => dictInsert d (key y) (val y)) d) (key x)).isSome
        = true := by
  intro l
  induction l with
  | nil => intro d x h; cases h
  | cons y rest ih =>
    intro d x h
    rw [List.foldl_cons]
    rcases List.mem_cons.mp h with h2 | h2
    · apply dictGet_isSome_foldl_preserved
      rw [h2, dictGet_dictInsert_self]
      rfl
    · exact ih _ x h2

/-- Helper: every entry of the installed-addons dict is a live row of the
table, keyed by its lowercased name. -/
theorem getInstalled_mem (tbl : List InstalledRow) (p : String × InstalledRow)
    (h : p ∈ getInstalled tbl) :
    p.2 ∈ tbl ∧ p.2.deleted_at_utc = none ∧ p.1 = pyLower p.2.name := by
  rcases mem_foldl_dictInsert (fun r : InstalledRow => pyLower r.name) (fun r => r)
      (tbl.filter (fun r => r.deleted_at_utc.isNone)) [] p h with h2 | ⟨r, hr, hpr⟩
  · cases h2
  · have hmem := List.mem_filter.mp hr
    have hlive : r.deleted_at_utc = none := by
      have := hmem.2
      simpa [Option.isNone_iff_eq_none] using this
    rw [hpr]
    exact ⟨hmem.1, hlive, rfl⟩

/-- Helper: every live row of the table is reachable through the
installed-addons dict under its lowercased name. -/
theorem getInstalled_covers (tbl : List InstalledRow) (r : InstalledRow)
    (hr : r ∈ tbl) (hlive : r.deleted_at_utc = none) :
    (dictGet (getInstalled tbl) (pyLower r.name)).isSome = true := by
  apply dictGet_isSome_foldl_mem (fun r : InstalledRow => pyLower r.name) (fun r => r)
  exact List.mem_filter.mpr ⟨hr, by simp [hlive]⟩

/-- Helper: every scan entry comes from a manifest-bearing folder and records
that folder's git URL, identity resolution and path. -/
theorem scan_mem (cfg : Config) (addons : List CatalogRow) (fs : Fs)
    (e : String × ScanInfo) (h : e ∈ scan_addon_directory cfg addons fs) :
    ∃ f ∈ fs.folders, f.hasToc = true
      ∧ e = (f.fname,
          { gitUrl := f.gitUrl, matched := resolveMatch addons f, path := f.path }) := by
  rw [scan_addon_directory] at h
  by_cases hc : (cfg.hasAddonPath && fs.rootExists) = true
  · rw [if_pos hc] at h
    rcases mem_foldl_dictInsert (fun f : DiskFolder => f.fname)
        (fun f => ({ gitUrl := f.gitUrl, matched := resolveMatch addons f,
                     path := f.path } : ScanInfo))
        (fs.folders.filter (fun f => f.hasToc)) [] e h with h2 | ⟨f, hf, hpf⟩
    · cases h2
    · have hmem := List.mem_filter.mp hf
      exact ⟨f, hmem.1, hmem.2, hpf⟩
  · rw [if_neg hc] at h
    cases h

/-- Helper: the first reconciliation loop never touches the catalog table. -/
theorem syncLoop1_addons (snap : List (String × InstalledRow)) (now : String) :
    ∀ (l : List (String × ScanInfo)) (db : Db) (n : Nat),
      (syncLoop1 snap now l db n).1.addons = db.addons := by
  intro l
  induction l with
  | nil => intro db n; rfl
  | cons e rest ih =>
    intro db n
    by_cases h1 : (dictGet snap (pyLower (anameOf e))).isNone = true
    · simp only [syncLoop1, h1, if_true]
      rw [ih]
    · by_cases h2 : (truthyO e.2.gitUrl && truthyO e.2.matched) = true
      · simp only [syncLoop1, h1, h2, if_true, if_false, Bool.false_eq_true]
        rw [ih]
      · simp only [syncLoop1, h1, h2, if_false, Bool.false_eq_true]
        rw [ih]

/-- Helper: the second reconciliation loop never touches the catalog table. -/
theorem syncLoop2_addons (now : String) (pe : String → Bool) :
    ∀ (sl : List (String × InstalledRow)) (db : Db) (n : Nat),
      (syncLoop2 now pe sl db n).1.addons = db.addons := by
  intro sl
  induction sl with
  | nil => intro db n; rfl
  | cons e rest ih =>
    intro db n
    by_cases h1 : pe e.2.path = true
    · simp only [syncLoop2, h1, if_true]
      rw [ih]
    · simp only [syncLoop2, h1, if_false, Bool.false_eq_true]
      rw [ih]

/-- Helper: the first reconciliation loop never removes a live row with a
given case-insensitive key (inserts append, updates keep name and liveness). -/
theorem syncLoop1_preserves_live (snap : List (String × InstalledRow)) (now : String) :
    ∀ (l : List (String × ScanInfo)) (db : Db) (n : Nat) (k : String),
      (∃ r ∈ db.installed, r.deleted_at_utc = none ∧ pyLower r.name = k) →
      ∃ r ∈ (syncLoop1 snap now l db n).1.installed,
        r.deleted_at_utc = none ∧ pyLower r.name = k := by
  intro l
  induction l with
  | nil => intro db n k h; exact h
  | cons e rest ih =>
    intro db n k h
    by_cases h1 : (dictGet snap (pyLower (anameOf e))).isNone = true
    · simp only [syncLoop1, h1, if_true]
      apply ih
      obtain ⟨r, hr, hp⟩ := h
      exact ⟨r, List.mem_append_left _ hr, hp⟩
    · by_cases h2 : (truthyO e.2.gitUrl && truthyO e.2.matched) = true
      · simp only [syncLoop1, h1, h2, if_true, if_false, Bool.false_eq_true]
        apply ih
        obtain ⟨r, hr, hdel, hk⟩ := h
        refine ⟨_, List.mem_map_of_mem _ hr, ?_⟩
        by_cases hc : (r.name == anameOf e && r.deleted_at_utc.isNone) = true
        · simp only [if_pos hc]
          exact ⟨hdel, hk⟩
        · simp only [if_neg hc]
          exact ⟨hdel, hk⟩
      · simp only [syncLoop1, h1, h2, if_false, Bool.false_eq_true]
        exact ih db n k h

/-- Helper: the first reconciliation loop never removes a live row with a
given exact name. -/
theorem syncLoop1_preserves_liveName (snap : List (String × InstalledRow)) (now : String) :
    ∀ (l : List (String × ScanInfo)) (db : Db) (n : Nat) (nm : String),
      (∃ r ∈ db.installed, r.deleted_at_utc = none ∧ r.name = nm) →
      ∃ r ∈ (syncLoop1 snap now l db n).1.installed,
        r.deleted_at_utc = none ∧ r.name = nm := by
  intro l
  induction l with
  | nil => intro db n nm h; exact h
  | cons e rest ih =>
    intro db n nm h
    by_cases h1 : (dictGet snap (pyLower (anameOf e))).isNone = true
    · simp only [syncLoop1, h1, if_true]
      apply ih
      obtain ⟨r, hr, hp⟩ := h
      exact ⟨r, List.mem_append_left _ hr, hp⟩
    · by_cases h2 : (truthyO e.2.gitUrl && truthyO e.2.matched) = true
      · simp only [syncLoop1, h1, h2, if_true, if_false, Bool.false_eq_true]
        apply ih
        obtain ⟨r, hr, hdel, hk⟩ := h
        refine ⟨_, List.mem_map_of_mem _ hr, ?_⟩
        by_cases hc : (r.name == anameOf e && r.deleted_at_utc.isNone) = true
        · simp only [if_pos hc]
          exact ⟨hdel, hk⟩
        · simp only [if_neg hc]
          exact ⟨hdel, hk⟩
      · simp only [syncLoop1, h1, h2, if_false, Bool.false_eq_true]
        exact ih db n nm h

/-- Helper: when every scanned folder's identity is already present in the
snapshot, the first loop counts nothing as newly found. -/
theorem syncLoop1_found_zero (snap : List (String × InstalledRow)) (now : String) :
    ∀ (l : List (String × ScanInfo)) (db : Db) (n : Nat),
      (∀ e ∈ l, (dictGet snap (pyLower (anameOf e))).isSome = true) →
      (syncLoop1 snap now l db n).2 = n := by
  intro l
  induction l with
  | nil => intro db n _; rfl
  | cons e rest ih =>
    intro db n h
    have hs := h e (List.mem_cons_self e rest)
    have h1 : ¬ (dictGet snap (pyLower (anameOf e))).isNone = true := by
      obtain ⟨v, hv⟩ := Option.isSome_iff_exists.mp hs
      rw [hv]
      simp
    by_cases h2 : (truthyO e.2.gitUrl && truthyO e.2.matched) = true
    · simp only [syncLoop1, h1, h2, if_true, if_false, Bool.false_eq_true]
      exact ih _ n (fun e2 he2 => h e2 (List.mem_cons_of_mem e he2))
    · simp only [syncLoop1, h1, h2, if_false, Bool.false_eq_true]
      exact ih db n (fun e2 he2 => h e2 (List.mem_cons_of_mem e he2))

/-- Helper: after the first reconciliation loop, every scanned folder's
resolved identity has a live row under its case-insensitive key, provided
every snapshot key already had one at loop start. -/
theorem syncLoop1_covers (snap : List (String × InstalledRow)) (now : String) :
    ∀ (l : List (String × ScanInfo)) (db : Db) (n : Nat),
      (∀ (k : String) (v : InstalledRow), dictGet snap k = some v →
        ∃ r ∈ db.installed, r.deleted_at_utc = none ∧ pyLower r.name = k) →
      ∀ e ∈ l, ∃ r ∈ (syncLoop1 snap now l db n).1.installed,
        r.deleted_at_utc = none ∧ pyLower r.name = pyLower (anameOf e) := by
  intro l
  induction l with
  | nil => intro db n _ e he; cases he
  | cons e0 rest ih =>
    intro db n hsnap e he
    by_cases h1 : (dictGet snap (pyLower (anameOf e0))).isNone = true
    · simp only [syncLoop1, h1, if_true]
      have hsnap' : ∀ (k : String) (v : InstalledRow), dictGet snap k = some v →
          ∃ r ∈ db.installed ++ [newFoundRow db now (anameOf e0) e0.2],
            r.deleted_at_utc = none ∧ pyLower r.name = k := by
        intro k v hkv
        obtain ⟨r, hr, hp⟩ := hsnap k v hkv
        exact ⟨r, List.mem_append_left _ hr, hp⟩
      rcases List.mem_cons.mp he with he0 | herest
      · subst he0
        apply syncLoop1_preserves_live
        refine ⟨newFoundRow db now (anameOf e) e.2, List.mem_append_right _ ?_, rfl, rfl⟩
        exact List.mem_singleton_self _
      · exact ih _ (n + 1) hsnap' e herest
    · have hsome : (dictGet snap (pyLower (anameOf e0))).isSome = true := by
        cases hg : dictGet snap (pyLower (anameOf e0)) with
        | none => rw [hg] at h1; simp at h1
        | some v => rfl
      by_cases h2 : (truthyO e0.2.gitUrl && truthyO e0.2.matched) = true
      · simp only [syncLoop1, h1, h2, if_true, if_false, Bool.false_eq_true]
        have hsnap' : ∀ (k : String) (v : InstalledRow), dictGet snap k = some v →
            ∃ r ∈ db.installed.map (fun r =>
                if r.name == anameOf e0 && r.deleted_at_utc.isNone then
                  { r with path := e0.2.path, source_repo_url := e0.2.gitUrl.getD "" }
                else r),
              r.deleted_at_utc = none ∧ pyLower r.name = k := by
          intro k v hkv
          obtain ⟨r, hr, hdel, hk⟩ := hsnap k v hkv
          refine ⟨_, List.mem_map_of_mem _ hr, ?_⟩
          by_cases hc : (r.name == anameOf e0 && r.deleted_at_utc.isNone) = true
          · simp only [if_pos hc]
            exact ⟨hdel, hk⟩
          · simp only [if_neg hc]
            exact ⟨hdel, hk⟩
        rcases List.mem_cons.mp he with he0 | herest
        · subst he0
          obtain ⟨v, hv⟩ := Option.isSome_iff_exists.mp hsome
          apply syncLoop1_preserves_live
          exact hsnap' (pyLower (anameOf e)) v hv
        · exact ih _ n hsnap' e herest
      · simp only [syncLoop1, h1, h2, if_false, Bool.false_eq_true]
        rcases List.mem_cons.mp he with he0 | herest
        · subst he0
          obtain ⟨v, hv⟩ := Option.isSome_iff_exists.mp hsome
          apply syncLoop1_preserves_live
          exact hsnap (pyLower (anameOf e)) v hv
        · exact ih db n hsnap e herest

/-- Helper: after the first reconciliation loop, every row either descends
from a start-of-loop row with its name and liveness intact (and a path that
is unchanged or points at a scanned folder), or is a freshly inserted live
row whose path points at a scanned folder. -/
theorem syncLoop1_paths (snap : List (String × InstalledRow)) (now : String)
    (pe : String → Bool) :
    ∀ (l : List (String × ScanInfo)) (db : Db) (n : Nat),
      (∀ e ∈ l, pe e.2.path = true) →
      ∀ r2 ∈ (syncLoop1 snap now l db n).1.installed,
        (∃ r ∈ db.installed, r2.name = r.name ∧ r2.deleted_at_utc = r.deleted_at_utc
            ∧ (r2.path = r.path ∨ pe r2.path = true))
          ∨ (r2.deleted_at_utc = none ∧ pe r2.path = true) := by
  intro l
  induction l with
  | nil =>
    intro db n _ r2 hr2
    exact Or.inl ⟨r2, hr2, rfl, rfl, Or.inl rfl⟩
  | cons e0 rest ih =>
    intro db n hpe r2 hr2
    have hpe0 : pe e0.2.path = true := hpe e0 (List.mem_cons_self e0 rest)
    have hperest : ∀ e ∈ rest, pe e.2.path = true :=
      fun e he => hpe e (List.mem_cons_of_mem e0 he)
    by_cases h1 : (dictGet snap (pyLower (anameOf e0))).isNone = true
    · simp only [syncLoop1, h1, if_true] at hr2
      rcases ih _ (n + 1) hperest r2 hr2 with ⟨r, hr, hname, hdel, hpath⟩ | hnew
      · rcases List.mem_append.mp hr with hrdb | hrnew
        · exact Or.inl ⟨r, hrdb, hname, hdel, hpath⟩
        · rw [List.mem_singleton] at hrnew
          subst hrnew
          refine Or.inr ⟨hdel, ?_⟩
          rcases hpath with hp2 | hp2
          · rw [hp2]
            exact hpe0
          · exact hp2
      · exact Or.inr hnew
    · by_cases h2 : (truthyO e0.2.gitUrl && truthyO e0.2.matched) = true
      · simp only [syncLoop1, h1, h2, if_true, if_false, Bool.false_eq_true] at hr2
        rcases ih _ n hperest r2 hr2 with ⟨r3, hr3, hname, hdel, hpath⟩ | hnew
        · rw [List.mem_map] at hr3
          obtain ⟨r, hr, hEq⟩ := hr3
          by_cases hc : (r.name == anameOf e0 && r.deleted_at_utc.isNone) = true
          · rw [if_pos hc] at hEq
            refine Or.inl ⟨r, hr, ?_, ?_, ?_⟩
            · rw [hname, ← hEq]
            · rw [hdel, ← hEq]
            · rcases hpath with hp2 | hp2
              · right
                rw [hp2, ← hEq]
                exact hpe0
              · right
                exact hp2
          · rw [if_neg hc] at hEq
            refine Or.inl ⟨r, hr, ?_, ?_, ?_⟩
            · rw [hEq]
              exact hname
            · rw [hEq]
              exact hdel
            · rw [hEq]
              exact hpath
        · exact Or.inr hnew
      · simp only [syncLoop1, h1, h2, if_false, Bool.false_eq_true] at hr2
        exact ih db n hperest r2 hr2

/-- Helper: a scanned folder whose resolved identity is absent from the
snapshot causes the first loop to insert a live row under exactly that
identity. -/
theorem syncLoop1_inserts (snap : List (String × InstalledRow)) (now : String) :
    ∀ (l : List (String × ScanInfo)) (db : Db) (n : Nat) (e : String × ScanInfo)
      (nm : String),
      e ∈ l → anameOf e = nm → dictGet snap (pyLower nm) = none →
      ∃ r ∈ (syncLoop1 snap now l db n).1.installed,
        r.deleted_at_utc = none ∧ r.name = nm := by
  intro l
  induction l with
  | nil => intro db n e nm he _ _; cases he
  | cons e0 rest ih =>
    intro db n e nm he hnm hkey
    rcases List.mem_cons.mp he with he0 | herest
    · subst he0
      have h1 : (dictGet snap (pyLower (anameOf e))).isNone = true := by
        rw [hnm, hkey]
        rfl
      simp only [syncLoop1, h1, if_true]
      apply syncLoop1_preserves_liveName
      refine ⟨newFoundRow db now (anameOf e) e.2, List.mem_append_right _ ?_, rfl, hnm⟩
      exact List.mem_singleton_self _
    · by_cases h1 : (dictGet snap (pyLower (anameOf e0))).isNone = true
      · simp only [syncLoop1, h1, if_true]
        exact ih _ (n + 1) e nm herest hnm hkey
      · by_cases h2 : (truthyO e0.2.gitUrl && truthyO e0.2.matched) = true
        · simp only [syncLoop1, h1, h2, if_true, if_false, Bool.false_eq_true]
          exact ih _ n e nm herest hnm hkey
        · simp only [syncLoop1, h1, h2, if_false, Bool.false_eq_true]
          exact ih db n e nm herest hnm hkey

/-- Helper: when every snapshot record's stored path still exists, the second
reconciliation loop changes nothing and removes nothing. -/
theorem syncLoop2_noop (now : String) (pe : String → Bool) :
    ∀ (sl : List (String × InstalledRow)) (db : Db) (n : Nat),
      (∀ p ∈ sl, pe p.2.path = true) → syncLoop2 now pe sl db n = (db, n) := by
  intro sl
  induction sl with
  | nil => intro db n _; rfl
  | cons p rest ih =>
    intro db n h
    have hp := h p (List.mem_cons_self p rest)
    simp only [syncLoop2, hp, if_true]
    exact ih db n (fun q hq => h q (List.mem_cons_of_mem p hq))

/-- Helper: the second loop only soft-deletes rows carrying a snapshot
record's exact name, so a live row named differently from every snapshot
record survives it. -/
theorem syncLoop2_preserves_disjoint (now : String) (pe : String → Bool) (nm : String) :
    ∀ (sl : List (String × InstalledRow)) (db : Db) (n : Nat),
      (∀ p ∈ sl, ¬ p.2.name = nm) →
      (∃ r ∈ db.installed, r.deleted_at_utc = none ∧ r.name = nm) →
      ∃ r ∈ (syncLoop2 now pe sl db n).1.installed,
        r.deleted_at_utc = none ∧ r.name = nm := by
  intro sl
  induction sl with
  | nil => intro db n _ h; exact h
  | cons p rest ih =>
    intro db n hdisj h
    have hdisj' : ∀ q ∈ rest, ¬ q.2.name = nm :=
      fun q hq => hdisj q (List.mem_cons_of_mem p hq)
    by_cases h1 : pe p.2.path = true
    · simp only [syncLoop2, h1, if_true]
      exact ih db n hdisj' h
    · simp only [syncLoop2, h1, if_false, Bool.false_eq_true]
      apply ih _ (n + 1) hdisj'
      obtain ⟨r, hr, hdel, hname⟩ := h
      refine ⟨_, List.mem_map_of_mem _ hr, ?_⟩
      have hc : ¬ (r.name == p.2.name && r.deleted_at_utc.isNone) = true := by
        intro hcc
        have := (Bool.and_eq_true _ _).mp hcc
        have hrn : r.name = p.2.name := by simpa using this.1
        exact hdisj p (List.mem_cons_self p rest) (by rw [← hrn, hname])
      simp only [if_neg hc]
      exact ⟨hdel, hname⟩

/-- Claim C4 (counterexample): the URL index is built from `repo_url` only,
so a folder whose git remote exactly matches a live catalog entry's override
URL is not matched - reconciliation records it under the folder name
"barfolder" instead of the catalog name "Foo". -/
theorem sync_override_url_not_indexed :
    dictGet (repoCache c4Db.addons) (normalize_repo_url "https://github.com/b/y") = none
      ∧ ((sync_installed_state stdCfg c4Db c4Fs "t1").2.installed.map (fun r => r.name))
          = ["barfolder"]
      ∧ ¬ "barfolder" = "Foo" := by
  exact ⟨by decide, by decide, by decide⟩

/-- Claim C4 (amended): the session URL index covers only the primary
`repo_url` of live catalog rows.  When a scanned folder's normalized git URL
hits that index (with a non-empty catalog name), identity resolution returns
the catalog entry's name, and reconciliation then creates (when the key is
new) a live `InstalledRecord` named after the catalog entry, not the folder. -/
theorem sync_primary_url_match_identity :
    (∀ (addons : List CatalogRow) (f : DiskFolder) (nm : String),
        truthyO f.gitUrl = true →
        dictGet (repoCache addons) (normalize_repo_url (f.gitUrl.getD "")) = some nm →
        ¬ nm = "" →
        resolveMatch addons f = some nm)
      ∧ (∀ (cfg : Config) (db : Db) (fs : Fs) (now : String) (e : String × ScanInfo)
          (nm : String),
          e ∈ scan_addon_directory cfg db.addons fs →
          e.2.matched = some nm → ¬ nm = "" →
          dictGet (getInstalled db.installed) (pyLower nm) = none →
          ∃ r ∈ (sync_installed_state cfg db fs now).2.installed,
            r.deleted_at_utc = none ∧ r.name = nm) := by
  constructor
  · intro addons f nm hg hcache hne
    have htr : truthyO (some nm) = true := by simp [truthyO, truthyS, hne]
    simp [resolveMatch, hg, hcache, htr]
  · intro cfg db fs now e nm he hm hne hkey
    have hcond : (cfg.hasAddonPath && fs.rootExists) = true := by
      by_contra hc
      rw [scan_addon_directory, if_neg hc] at he
      cases he
    have hp : cfg.hasAddonPath = true := ((Bool.and_eq_true _ _).mp hcond).1
    have ha : anameOf e = nm := by
      have hb : (nm != "") = true := by simp [hne]
      simp [anameOf, hm, hb]
    have hrow := syncLoop1_inserts (getInstalled db.installed) now
      (scan_addon_directory cfg db.addons fs) db 0 e nm he ha hkey
    have hdisj : ∀ p ∈ getInstalled db.installed, ¬ p.2.name = nm := by
      intro p hp2 heq
      have hmem := getInstalled_mem db.installed p hp2
      apply dictGet_none_forall _ _ hkey p hp2
      rw [hmem.2.2, heq]
    have hfinal := syncLoop2_preserves_disjoint now fs.pathExists nm
      (getInstalled db.installed)
      (syncLoop1 (getInstalled db.installed) now
        (scan_addon_directory cfg db.addons fs) db 0).1
      0 hdisj hrow
    simp only [sync_installed_state, hp, if_true]
    exact hfinal

/-- Claim C4 (witness): a folder whose remote matches the catalog entry's
primary URL resolves to "Foo" and reconciliation records it as "Foo". -/
theorem sync_primary_url_match_identity_witness :
    resolveMatch c4Db.addons
        { fname := "barfolder", hasToc := true,
          gitUrl := some "https://github.com/a/x.git", path := "addons/barfolder" }
        = some "Foo"
      ∧ ∃ r ∈ (sync_installed_state stdCfg c4Db c4wFs "t1").2.installed,
          r.deleted_at_utc = none ∧ r.name = "Foo" := by
  refine ⟨sync_primary_url_match_identity.1 c4Db.addons _ "Foo"
      (by decide) (by decide) (by decide), ?_⟩
  exact sync_primary_url_match_identity.2 stdCfg c4Db c4wFs "t1"
    ("barfolder", { gitUrl := some "https://github.com/a/x.git", matched := some "Foo",
                    path := "addons/barfolder" }) "Foo"
    (by decide) (by decide) (by decide) (by decide)

/-- Claim C5 (counterexample): a live record whose stored path vanished while
its add-on moved to a new, URL-matched folder is path-repaired and then
soft-deleted by the same first call, so the second call re-finds it:
the two calls return (0, 1) and then (1, 0), not (0, 0). -/
theorem sync_twice_not_idempotent :
    (sync_installed_state stdCfg c5Db c5Fs "t1").1 = (0, 1)
      ∧ (sync_installed_state stdCfg
            ((sync_installed_state stdCfg c5Db c5Fs "t1").2) c5Fs "t2").1 = (1, 0)
      ∧ ¬ ((1 : Nat), (0 : Nat)) = ((0 : Nat), (0 : Nat)) := by
  exact ⟨by decide, by decide, by decide⟩

/-- Claim C5 (amended): when every live installed record's stored path exists
on disk at the start (and the scanner's folder paths exist, as they do for a
real directory listing), running `sync_installed_state` twice with no
filesystem change yields `(0, 0)` from the second call. The counterexample
shows the unrestricted claim fails when a live record has a vanished stored
path and an on-disk folder resolving to the same identity. -/
theorem sync_twice_zero_when_paths_exist (cfg : Config) (db : Db) (fs : Fs)
    (now1 now2 : String)
    (hlive : ∀ r ∈ db.installed, r.deleted_at_utc = none → fs.pathExists r.path = true)
    (hfold : ∀ f ∈ fs.folders, fs.pathExists f.path = true) :
    (sync_installed_state cfg ((sync_installed_state cfg db fs now1).2) fs now2).1
      = (0, 0) := by
  by_cases hp : cfg.hasAddonPath = true
  · have hsnap1 : ∀ p ∈ getInstalled db.installed, fs.pathExists p.2.path = true := by
      intro p hp2
      have hm := getInstalled_mem db.installed p hp2
      exact hlive p.2 hm.1 hm.2.1
    have hdisk : ∀ e ∈ scan_addon_directory cfg db.addons fs,
        fs.pathExists e.2.path = true := by
      intro e he
      obtain ⟨f, hf, _, hEq⟩ := scan_mem cfg db.addons fs e he
      rw [hEq]
      exact hfold f hf
    have h2nd : (sync_installed_state cfg db fs now1).2
        = (syncLoop1 (getInstalled db.installed) now1
            (scan_addon_directory cfg db.addons fs) db 0).1 := by
      simp only [sync_installed_state, hp, if_true]
      rw [syncLoop2_noop now1 fs.pathExists _ _ 0 hsnap1]
    rw [h2nd]
    set db1 := (syncLoop1 (getInstalled db.installed) now1
      (scan_addon_directory cfg db.addons fs) db 0).1 with hdb1
    have hdb1addons : db1.addons = db.addons := syncLoop1_addons _ _ _ _ _
    have hdb1paths : ∀ r2 ∈ db1.installed, r2.deleted_at_utc = none →
        fs.pathExists r2.path = true := by
      intro r2 hr2 hl2
      rcases syncLoop1_paths (getInstalled db.installed) now1 fs.pathExists
          (scan_addon_directory cfg db.addons fs) db 0 hdisk r2 hr2 with
        ⟨r, hr, hname, hdel, hpath⟩ | ⟨_, hpe⟩
      · rcases hpath with hp2 | hp2
        · rw [hp2]
          exact hlive r hr (by rw [← hdel]; exact hl2)
        · exact hp2
      · exact hpe
    have hsnap2 : ∀ p ∈ getInstalled db1.installed, fs.pathExists p.2.path = true := by
      intro p hp2
      have hm := getInstalled_mem db1.installed p hp2
      exact hdb1paths p.2 hm.1 hm.2.1
    have hcov : ∀ e ∈ scan_addon_directory cfg db.addons fs,
        (dictGet (getInstalled db1.installed) (pyLower (anameOf e))).isSome = true := by
      intro e he
      have hsnapcov : ∀ (k : String) (v : InstalledRow),
          dictGet (getInstalled db.installed) k = some v →
          ∃ r ∈ db.installed, r.deleted_at_utc = none ∧ pyLower r.name = k := by
        intro k v hkv
        have hm := getInstalled_mem db.installed (k, v) (dictGet_mem _ _ _ hkv)
        exact ⟨v, hm.1, hm.2.1, hm.2.2.symm⟩
      obtain ⟨r, hr, hrl, hrk⟩ := syncLoop1_covers (getInstalled db.installed) now1
        (scan_addon_directory cfg db.addons fs) db 0 hsnapcov e he
      have hc := getInstalled_covers db1.installed r hr hrl
      rw [hrk] at hc
      exact hc
    simp only [sync_installed_state, hp, if_true]
    rw [hdb1addons]
    rw [syncLoop2_noop now2 fs.pathExists (getInstalled db1.installed) _ 0 hsnap2]
    rw [syncLoop1_found_zero (getInstalled db1.installed) now2 _ db1 0 hcov]
  · have hp' : cfg.hasAddonPath = false := by simpa using hp
    simp [sync_installed_state, hp']

/-- Claim C5 (witness): a store and disk that agree give `(0, 0)` on the
second call. -/
theorem sync_twice_zero_when_paths_exist_witness :
    (sync_installed_state stdCfg
        ((sync_installed_state stdCfg c5wDb c5wFs "t1").2) c5wFs "t2").1 = (0, 0) := by
  exact sync_twice_zero_when_paths_exist stdCfg c5wDb c5wFs "t1" "t2"
    (by decide) (by decide)
